import Mathlib

/-!
Shallow embedding of the rgit serving core (src/git.rs, src/main.rs) and
verification of its specification claims.  Pure data flow is embedded as
Lean functions; filesystem and libgit2 lookups become explicit parameters
(the environment); `unwrap` on a failed value is modelled as an explicit
`panicked` outcome, distinct from any typed error result.
-/

/- ## RevisionWalker: Git::get_commits (src/git.rs lines 156-192)

The revision walk produced by `repo.revwalk()` (after `push_ref`/`push_head`)
is modelled as the list `revs` of commits in traversal order.  The body then
does exactly:

    let mut commits: Vec<Commit> = revs.skip(offset).take(AMOUNT + 1)...collect();
    let next_offset = commits.pop().is_some().then(|| offset + commits.len());
    (commits, next_offset)

`Vec::pop` removes the final element whenever the vector is non-empty and
returns whether it did; `commits.len()` inside the closure is the length
after the pop. -/

def AMOUNT : Nat := 200

def get_commits {α : Type} (revs : List α) (offset : Nat) : List α × Option Nat :=
  let commits := (revs.drop offset).take (AMOUNT + 1)
  match commits.getLast? with
  | none => (commits, none)
  | some _ => (commits.dropLast, some (offset + commits.dropLast.length))

/- ## MetadataScanner start path: Git::fetch_repository_metadata (src/git.rs line 140)

    let start = Path::new("../test-git").canonicalize().unwrap();

The function receives no path argument and consults no configuration: the
scan root it passes to fetch_repository_metadata_impl is the literal
"../test-git" regardless of the `scan_path` the process was started with
(src/main.rs `Args.scan_path`). -/

def fetch_repository_metadata_start (scan_path : String) : String :=
  "../test-git"

/- ## Panic-on-failure accessors: Git::get_commit, Git::get_readme
   (src/git.rs lines 45-60 and 99-121)

Every fallible step is `.unwrap()`: a failure panics instead of producing a
typed error value.  `LookupOutcome` makes the panic observable; note it has
no error constructor at all — the Rust return types (`Arc<Commit>`,
`Arc<str>`) likewise carry no error channel. -/

inductive LookupOutcome (α : Type) where
  | ok : α → LookupOutcome α
  | panicked : LookupOutcome α
deriving DecidableEq

def isHexDigit (c : Char) : Bool :=
  c.isDigit || (Char.ofNat 97 ≤ c && c ≤ Char.ofNat 102) || (Char.ofNat 65 ≤ c && c ≤ Char.ofNat 70)

/-- `Oid::from_str`: accepts a hexadecimal string of at most 40 digits;
anything else fails (and the caller unwraps). -/
def parseOid (s : String) : Option String :=
  if s.length ≤ 40 && s.toList.all isHexDigit then some s else none

/-- `Git::get_commit`: `Oid::from_str(commit).unwrap()` then
`repo.find_commit(commit).unwrap()`.  `findCommit` is the repository's
object lookup (`none` = no such commit). -/
def get_commit (findCommit : String → Option (List Nat)) (id : String) :
    LookupOutcome (List Nat) :=
  match parseOid id with
  | none => .panicked
  | some oid =>
    match findCommit oid with
    | none => .panicked
    | some c => .ok c

/-- `Git::get_readme`: `tree.get_name("README.md").unwrap()` then
`String::from_utf8(blob.content().to_vec()).unwrap()`.  `readme` is the
blob content of the `README.md` tree entry at head (`none` = absent);
`utf8` is UTF-8 decoding (`none` = invalid encoding). -/
def get_readme (readme : Option (List Nat)) (utf8 : List Nat → Option String) :
    LookupOutcome String :=
  match readme with
  | none => .panicked
  | some bytes =>
    match utf8 bytes with
    | none => .panicked
    | some s => .ok s

/- ## SchemaGate: open_db (src/main.rs lines 201-226)

The sled database is modelled as a finite-support map from keys to values.

    let needs_schema_regen = match db.get(TreePrefix::schema_version())? {
        Some(v) if v != SCHEMA_VERSION.as_bytes() => Some(Some(v)),
        Some(_) => None,
        None => Some(None),
    };
    if let Some(version) = needs_schema_regen { ... db.clear()?; db.insert(key, SCHEMA_VERSION)?; }

`SCHEMA_VERSION` and the marker key live in the `database` module (not under
src/), so both are parameters; the gate compares the stored marker
byte-for-byte against the expected version string. -/

def Db : Type := String → Option String

def dbGet (d : Db) (k : String) : Option String := d k

def dbClear (_d : Db) : Db := fun _ => none

def dbInsert (d : Db) (k v : String) : Db :=
  fun q => if q = k then some v else d q

def open_db_gate (markerKey expected : String) (d : Db) : Db :=
  match dbGet d markerKey with
  | some v => if v ≠ expected then dbInsert (dbClear d) markerKey expected else d
  | none => dbInsert (dbClear d) markerKey expected

/- ## GitDataCache: Git::get_refs (src/git.rs lines 62-97)

`repo.references()` is modelled as the list of references it yields, each
carrying its shorthand name, a classification (`is_branch` / `is_tag` /
neither — e.g. a remote-tracking or notes ref), the commit the ref peels
to, and, for tags, the optional tagger.  The loop body:

    if ref_.is_branch() { built_refs.branch.push(Branch { name, commit }) }
    else if ref_.is_tag() { built_refs.tag.push(Tag { name, tagger }) }

has no else arm: a reference that is neither branch nor tag is dropped. -/

inductive RefKind where
  | branch
  | tag
  | other
deriving DecidableEq

structure RefEntry where
  name : String
  kind : RefKind
  commit : Nat
  tagger : Option String
deriving DecidableEq

structure Refs where
  branch : List (String × Nat)
  tag : List (String × Option String)
deriving DecidableEq

def buildRefs : List RefEntry → Refs → Refs
  | [], acc => acc
  | r :: rs, acc =>
    if r.kind = .branch then
      buildRefs rs { acc with branch := acc.branch ++ [(r.name, r.commit)] }
    else if r.kind = .tag then
      buildRefs rs { acc with tag := acc.tag ++ [(r.name, r.tagger)] }
    else
      buildRefs rs acc

def get_refs (refIter : List RefEntry) : Refs :=
  buildRefs refIter ⟨[], []⟩

/- ## GitDataCache keying: the Git struct (src/git.rs lines 16-22, 45-60)

    commits: Cache<Oid, Arc<Commit>>,
    readme_cache: Cache<PathBuf, Arc<str>>,
    refs: Cache<PathBuf, Arc<Refs>>,

A moka cache is modelled as an association list from key to value;
`get_with(key, fut)` returns a live entry for `key` if present, otherwise
runs the computation and inserts the result under `key`.  (TTL expiry and
LRU eviction only remove entries; they never change which key a value is
stored under, so they are orthogonal to the keying claim and omitted.) -/

def cacheFind {κ ν : Type} [DecidableEq κ] (c : List (κ × ν)) (k : κ) : Option ν :=
  (c.find? (fun e => decide (e.1 = k))).map (fun e => e.2)

def get_with {κ ν : Type} [DecidableEq κ] (c : List (κ × ν)) (k : κ)
    (compute : Unit → ν) : ν × List (κ × ν) :=
  match cacheFind c k with
  | some v => (v, c)
  | none =>
    let v := compute ()
    (v, (k, v) :: c)

/-- `Git::get_commit`'s cache access: the key is the parsed Oid alone — the
repository path appears only inside the computation, never in the key. -/
def get_commit_cached (st : List (String × Nat)) (repo : String) (oid : String)
    (lookup : String → String → Nat) : Nat × List (String × Nat) :=
  get_with st oid (fun _ => lookup repo oid)

/-- `Git::get_refs` / `Git::get_readme` cache access: the key is the
repository path. -/
def get_by_repo_cached {ν : Type} (st : List (String × ν)) (repo : String)
    (lookup : String → ν) : ν × List (String × ν) :=
  get_with st repo (fun _ => lookup repo)

/- ## Metadata snapshot slot: Git::fetch_repository_metadata
   (src/git.rs lines 135-154)

    if let Some(metadata) = self.repository_metadata.load().as_ref() {
        return Arc::clone(metadata);
    }
    let repos = spawn_blocking(scan).await.unwrap();
    self.repository_metadata.store(Some(repos.clone()));
    repos

The ArcSwapOption slot is the `Option S` state; a call is modelled
atomically (one sequential call at a time).  The returned Bool records
whether the call performed a filesystem scan; `scanResult` is the value the
scan of the (unchanged) filesystem produces. -/

def fetch_metadata_once {S : Type} (slot : Option S) (scanResult : S) :
    S × Option S × Bool :=
  match slot with
  | some m => (m, some m, false)
  | none => (scanResult, some scanResult, true)

def fetch_metadata_iter {S : Type} (scanResult : S) :
    Option S → Nat → List (S × Bool) × Option S
  | slot, 0 => ([], slot)
  | slot, n + 1 =>
    let step := fetch_metadata_once slot scanResult
    let rest := fetch_metadata_iter scanResult step.2.1 n
    ((step.1, step.2.2) :: rest.1, rest.2)

/- ## IndexScheduler worker: run_indexer (src/main.rs lines 228-268)

    std::thread::spawn(move || loop {
        crate::database::indexer::run(&scan_path, &db);
        if indexer_wakeup_recv.blocking_recv().is_none() { break; }
    });

The worker is one sequential thread; its execution is the trace of events
it performs, driven by the sequence of wake notifications it will receive
before the channel reports closed-and-empty (`blocking_recv() == None`). -/

inductive WorkerEv where
  | rebuild
  | recvWake
  | recvClosed
deriving DecidableEq

def workerTrace : List Unit → List WorkerEv
  | [] => [.rebuild, .recvClosed]
  | _ :: rest => .rebuild :: .recvWake :: workerTrace rest

/- ## MetadataScanner: fetch_repository_metadata_impl (src/git.rs lines 320-369)

The filesystem subtree under the scan root is modelled as a tree of
directories (plain files are skipped by the `path.is_dir()` filter and not
represented).  Each directory carries: its base name, whether
`Repository::open_bare` succeeds on it, the contents of its `description`
sidecar file if readable, its `gitweb.owner` config value if set, and the
elapsed time since its filesystem modification time.

    for dir in dirs {
        let repository = match Repository::open_bare(&dir) {
            Ok(v) => v,
            Err(_e) => { fetch_repository_metadata_impl(start, &dir, repos); continue; }
        };
        let repo_path = Some(current.strip_prefix(start)...).filter(|v| !v.is_empty());
        let repos = repos.entry(repo_path).or_default();
        ... repos.push(RepositoryMetadata { name, description, owner, last_modified });
    }

The `&mut BTreeMap` accumulation is rendered as the sequence of
`(grouping key, metadata)` pushes the scan performs, in iteration order;
the final map is the grouping of that sequence.  `rel` is the path of the
directory being processed (`current`) relative to the scan root
(`current.strip_prefix(start)`), as its list of components. -/

structure RepositoryMetadata where
  name : String
  description : Option String
  owner : Option String
  last_modified : Nat
deriving DecidableEq

inductive Dir where
  | mk : String → Bool → Option String → Option String → Nat → List Dir → Dir

/-- `Some(current.strip_prefix(start)...to_string_lossy()).filter(|v| !v.is_empty())`:
the grouping key is the relative path joined with `/`, or absent when the
relative path is empty (top level). -/
def keyOf (rel : List String) : Option String :=
  if rel.isEmpty then none else some (String.intercalate "/" rel)

def fetchChildren (rel : List String) :
    List Dir → List (Option String × RepositoryMetadata)
  | [] => []
  | Dir.mk n r de ow lm ds :: cs =>
    (if r then [(keyOf rel, ⟨n, de, ow, lm⟩)]
     else fetchChildren (rel ++ [n]) ds) ++
      fetchChildren rel cs

/-- The entry call `fetch_repository_metadata_impl(&start, &start, &mut repos)`:
process the scan root's children with empty relative path. -/
def fetch_repository_metadata_impl (rootChildren : List Dir) :
    List (Option String × RepositoryMetadata) :=
  fetchChildren [] rootChildren

/-- Ground truth, independent of the accumulator plumbing: the discovered
repository directories of a directory list, each with the path (component
list) of its parent directory relative to the enclosing directory.  A
directory on which open succeeds is a discovered repository (its contents
are not searched further); one on which open fails contributes the
repositories discovered inside it, their parent paths extended by its
name. -/
def discoveredIn : List Dir → List (List String × RepositoryMetadata)
  | [] => []
  | Dir.mk n r de ow lm ds :: cs =>
    (if r then [([], ⟨n, de, ow, lm⟩)]
     else (discoveredIn ds).map (fun e => (n :: e.1, e.2))) ++
      discoveredIn cs

/- ## Theorems -/

/-- Claim C1 (code_bug): on a repository with a single commit and offset 0,
`get_commits` returns an empty page with `nextOffset = some 0` — the pop
removed a genuinely obtained commit (there was no 201st probe entry), the
only commit is never returned, and chaining from the reported offset
repeats the same call forever instead of ending with `nextOffset` absent.
The claim says the page should be the one commit with `nextOffset` absent.
A three-commit repository shows the same: the page drops the third commit
and offset 2 then loops on `([], some 2)`. -/
theorem get_commits_failing_input :
    get_commits ([0] : List Nat) 0 = ([], some 0) ∧
    get_commits ([0, 1, 2] : List Nat) 0 = ([0, 1], some 2) ∧
    get_commits ([0, 1, 2] : List Nat) 2 = ([], some 2) := by
  refine ⟨rfl, rfl, rfl⟩

/-- Claim C3 (code_bug): the recursive metadata scan starts at the
hardcoded literal `"../test-git"` for every configured scan path; in
particular a process configured with scan path `"/srv/git"` does not scan
`"/srv/git"`. -/
theorem fetch_repository_metadata_ignores_scan_path :
    (∀ scan_path : String,
        fetch_repository_metadata_start scan_path = "../test-git") ∧
    fetch_repository_metadata_start "/srv/git" ≠ "/srv/git" := by
  exact ⟨fun _ => rfl, by decide⟩

/-- Claim C5 (confirmed): the persisted-store gate's case analysis on the
version marker.  Marker absent, or present but different from the expected
version string: every key of the store is deleted and the marker is
rewritten to the expected version, so the resulting store maps the marker
key to the expected version and every other key to nothing.  Marker equal
to the expected version: no key of the store (marker or otherwise) is
modified. -/
theorem open_db_gate_cases (markerKey expected : String) (d : Db) :
    ((dbGet d markerKey = none ∨
        (∃ v, dbGet d markerKey = some v ∧ v ≠ expected)) →
      ∀ k, dbGet (open_db_gate markerKey expected d) k =
        if k = markerKey then some expected else none) ∧
    (dbGet d markerKey = some expected →
      ∀ k, dbGet (open_db_gate markerKey expected d) k = dbGet d k) := by
  constructor
  · intro h k
    cases hm : dbGet d markerKey with
    | none =>
      simp [open_db_gate, dbGet] at hm ⊢
      simp [hm, dbInsert, dbClear, dbGet]
    | some v =>
      have hv : v ≠ expected := by
        rcases h with h | ⟨w, hw, hne⟩
        · rw [hm] at h; exact absurd h (by simp)
        · rw [hm] at hw
          cases hw
          exact hne
      simp [open_db_gate, dbGet] at hm ⊢
      simp [hm, hv, dbInsert, dbClear, dbGet]
  · intro h k
    simp [open_db_gate, dbGet] at h ⊢
    simp [h, dbGet]

/-- Example store for the gate: marker `"m"` holds `"v1"`, one data key
`"x"` holds `"1"`. -/
def dbEx : Db :=
  fun k => if k = "m" then some "v1" else if k = "x" then some "1" else none

/-- Example store whose marker already holds the expected `"v2"`. -/
def dbEx2 : Db :=
  fun k => if k = "m" then some "v2" else if k = "x" then some "1" else none

/-- Witness for C5: expected version `"v2"` against a store whose marker
holds `"v1"` — the data key is deleted and the marker becomes `"v2"`; and
against a store already at `"v2"` — the data key is untouched. -/
theorem open_db_gate_cases_witness :
    dbGet (open_db_gate "m" "v2" dbEx) "x" = none ∧
    dbGet (open_db_gate "m" "v2" dbEx) "m" = some "v2" ∧
    dbGet (open_db_gate "m" "v2" dbEx2) "x" = dbGet dbEx2 "x" := by
  refine ⟨?_, ?_, ?_⟩
  · have h := (open_db_gate_cases "m" "v2" dbEx).1
      (Or.inr ⟨"v1", rfl, by decide⟩) "x"
    simpa using h
  · have h := (open_db_gate_cases "m" "v2" dbEx).1
      (Or.inr ⟨"v1", rfl, by decide⟩) "m"
    simpa using h
  · exact (open_db_gate_cases "m" "v2" dbEx2).2 rfl "x"

/-- A reference that is neither a branch nor a tag (e.g. a remote-tracking
ref), as yielded by the reference iterator. -/
def remoteRef : RefEntry := ⟨"origin/main", .other, 7, none⟩

/-- Claim C6 counterexample: a repository whose iterator enumerates exactly
one reference, a remote-tracking ref, yields a RefSet with no branches and
no tags — the enumerated reference is omitted from the result, contradicting
"no enumerated reference is omitted". -/
theorem get_refs_omits_enumerated_ref :
    get_refs [remoteRef] = ⟨[], []⟩ := rfl

theorem buildRefs_spec (rs : List RefEntry) (acc : Refs) :
    buildRefs rs acc =
      ⟨acc.branch ++
        (rs.filter (fun r => decide (r.kind = .branch))).map
          (fun r => (r.name, r.commit)),
       acc.tag ++
        (rs.filter (fun r => decide (r.kind = .tag))).map
          (fun r => (r.name, r.tagger))⟩ := by
  induction rs generalizing acc with
  | nil => simp [buildRefs]
  | cons r rs ih =>
    cases hk : r.kind with
    | branch => simp [buildRefs, hk, ih, List.filter_cons]
    | tag => simp [buildRefs, hk, ih, List.filter_cons]
    | other => simp [buildRefs, hk, ih, List.filter_cons]

/-- Claim C6 amended (proved): every enumerated reference classified as a
branch appears in the RefSet's branch list (in order, with its peeled
target commit), and every enumerated reference classified as a tag appears
in the tag list (with its optional tagger); references that are neither
branch nor tag are omitted. -/
theorem get_refs_classifies_branches_and_tags (rs : List RefEntry) :
    (get_refs rs).branch =
      (rs.filter (fun r => decide (r.kind = .branch))).map
        (fun r => (r.name, r.commit)) ∧
    (get_refs rs).tag =
      (rs.filter (fun r => decide (r.kind = .tag))).map
        (fun r => (r.name, r.tagger)) := by
  rw [get_refs, buildRefs_spec]
  exact ⟨by simp, by simp⟩

/-- A per-repository object lookup under which two repository paths hold
different commit objects for the same object id. -/
def lookupEx (repo : String) (_oid : String) : Nat :=
  if repo = "repoA" then 1 else 2

/-- Claim C4 counterexample: the commit cache is keyed by the Oid alone, so
after a call naming `repoA` caches the value `1` under the key `"d1"`, a
call naming `repoB` with the same id `"d1"` returns that cached value `1`
even though `repoB`'s own lookup yields `2` — a cached value computed for
one repository is returned for a call naming a different repository path. -/
theorem get_commit_cache_crosses_repositories :
    (get_commit_cached [] "repoA" "d1" lookupEx).2 = [("d1", 1)] ∧
    (get_commit_cached [("d1", 1)] "repoB" "d1" lookupEx).1 = 1 ∧
    lookupEx "repoB" "d1" = 2 := by
  refine ⟨rfl, rfl, by decide⟩

/-- Claim C4 amended (proved): the refs and readme caches are keyed by the
repository path, so a value cached for repository `A` is never returned for
a call naming a different repository `B` (B's call runs its own
computation); the commit cache is keyed by the commit identifier alone, so
a commit cached from repository `A` is returned for a call naming any
repository with the same identifier. -/
theorem cache_keys (A B : String) (h : A ≠ B) (lookupR : String → Nat)
    (lookupC : String → String → Nat) (oid : String) :
    (get_by_repo_cached
        ((get_by_repo_cached ([] : List (String × Nat)) A lookupR).2)
        B lookupR).1 = lookupR B ∧
    (get_commit_cached ((get_commit_cached [] A oid lookupC).2)
        B oid lookupC).1 = lookupC A oid := by
  constructor
  · simp [get_by_repo_cached, get_with, cacheFind, h, Ne.symm h]
  · simp [get_commit_cached, get_with, cacheFind]

/-- Example repository-keyed lookup for the C4 witness. -/
def lookupREx (repo : String) : Nat := if repo = "a" then 10 else 20

/-- Witness for the amended C4 at concrete repositories `"a" ≠ "b"` and
id `"d1"`. -/
theorem cache_keys_witness :
    (get_by_repo_cached
        ((get_by_repo_cached ([] : List (String × Nat)) "a" lookupREx).2)
        "b" lookupREx).1 = lookupREx "b" ∧
    (get_commit_cached ((get_commit_cached [] "a" "d1" lookupEx).2)
        "b" "d1" lookupEx).1 = lookupEx "a" "d1" :=
  cache_keys "a" "b" (by decide) lookupREx lookupEx "d1"

/-- Claim C2 (code_bug): lookup failures are not returned as typed errors —
they panic.  `get_commit` on the malformed identifier `"zz"` panics instead
of yielding `InvalidId`; `get_commit` on a well-formed identifier naming no
commit panics instead of `NotFound`; `get_readme` with `README.md` absent
panics instead of `NotFound`; `get_readme` on non-UTF-8 content panics
instead of `InvalidEncoding`. -/
theorem get_commit_get_readme_panic :
    get_commit (fun _ => none) "zz" = .panicked ∧
    get_commit (fun _ => none) "abc123" = .panicked ∧
    get_readme none (fun _ => some "") = .panicked ∧
    get_readme (some [255]) (fun _ => none) = .panicked := by
  refine ⟨by decide, by decide, rfl, rfl⟩

theorem workerTrace_eq (msgs : List Unit) :
    workerTrace msgs =
      WorkerEv.rebuild ::
        (msgs.flatMap fun _ => [WorkerEv.recvWake, WorkerEv.rebuild]) ++
          [WorkerEv.recvClosed] := by
  induction msgs with
  | nil => rfl
  | cons m rest ih => simp [workerTrace, ih]

/-- Claim C8 (confirmed): starting from the empty slot, the first completed
call scans (flag `true`), returns the scan result and stores it; from then
on, any number of subsequent calls all return exactly that stored snapshot
with no scan performed (flag `false`), and the slot never changes. -/
theorem fetch_repository_metadata_compute_once {S : Type} (scanResult : S)
    (n : Nat) :
    fetch_metadata_once (none : Option S) scanResult =
      (scanResult, some scanResult, true) ∧
    (fetch_metadata_iter scanResult (some scanResult) n).1 =
      List.replicate n (scanResult, false) ∧
    (fetch_metadata_iter scanResult (some scanResult) n).2 =
      some scanResult := by
  refine ⟨rfl, ?_, ?_⟩ <;> induction n with
  | zero => simp [fetch_metadata_iter]
  | succ n ih =>
    simp [fetch_metadata_iter, fetch_metadata_once, ih, List.replicate_succ]

/-- Claim C9 (confirmed): the worker's trace for any sequence of received
wake notifications is one rebuild, then one `(receive, rebuild)` pair per
notification, then the closed-channel receive that terminates it.  Hence
the rebuild count is exactly the notification count plus one (the startup
rebuild), the first event is a rebuild (before any wait on the queue), the
trace is a single sequential interleaving-free list (one worker thread, so
no two rebuilds overlap), and the last event — the only exit — is the
receive that reports the queue closed with nothing pending. -/
theorem run_indexer_worker_behaviour (msgs : List Unit) :
    workerTrace msgs =
      WorkerEv.rebuild ::
        (msgs.flatMap fun _ => [WorkerEv.recvWake, WorkerEv.rebuild]) ++
          [WorkerEv.recvClosed] ∧
    (workerTrace msgs).countP (fun e => decide (e = WorkerEv.rebuild)) =
      msgs.length + 1 ∧
    (workerTrace msgs).head? = some WorkerEv.rebuild ∧
    (workerTrace msgs).getLast? = some WorkerEv.recvClosed := by
  refine ⟨workerTrace_eq msgs, ?_, ?_, ?_⟩
  · induction msgs with
    | nil => rfl
    | cons m rest ih => simp [workerTrace, List.countP_cons, ih]
  · cases msgs <;> rfl
  · rw [workerTrace_eq, List.getLast?_concat]

theorem fetchChildren_eq_discovered (rel : List String) (cs : List Dir) :
    fetchChildren rel cs =
      (discoveredIn cs).map (fun e => (keyOf (rel ++ e.1), e.2)) := by
  induction rel, cs using fetchChildren.induct with
  | case1 rel => simp [fetchChildren, discoveredIn]
  | case2 rel n r de ow lm ds cs ih1 ih2 =>
    cases r with
    | true => simp [fetchChildren, discoveredIn, ih2]
    | false =>
      simp [fetchChildren, discoveredIn, ih1, ih2, Function.comp,
        List.append_assoc]

/-- Claim C7 (confirmed): the scan's push sequence is exactly one
`(grouping key, metadata)` record per discovered repository directory, with
the key `keyOf` of the repository's parent directory path relative to the
scan root (absent when the parent is the root itself) — so each discovered
repository is recorded exactly once and under exactly one key, which
partitions the records.  Moreover a directory that opens as a repository
contributes exactly its own record, with its contents never recursed into
(its subtree is irrelevant to the result), and a directory that fails to
open contributes exactly the records of the recursion into it, and no
record of its own. -/
theorem fetch_repository_metadata_impl_partition :
    (∀ rootChildren : List Dir,
      fetch_repository_metadata_impl rootChildren =
        (discoveredIn rootChildren).map (fun e => (keyOf e.1, e.2))) ∧
    (∀ (rel : List String) (n : String) (de ow : Option String) (lm : Nat)
        (ds ds2 cs : List Dir),
      fetchChildren rel (Dir.mk n true de ow lm ds :: cs) =
          (keyOf rel, ⟨n, de, ow, lm⟩) :: fetchChildren rel cs ∧
      fetchChildren rel (Dir.mk n true de ow lm ds :: cs) =
          fetchChildren rel (Dir.mk n true de ow lm ds2 :: cs)) ∧
    (∀ (rel : List String) (n : String) (de ow : Option String) (lm : Nat)
        (ds cs : List Dir),
      fetchChildren rel (Dir.mk n false de ow lm ds :: cs) =
        fetchChildren (rel ++ [n]) ds ++ fetchChildren rel cs) := by
  refine ⟨?_, ?_, ?_⟩
  · intro rootChildren
    simp [fetch_repository_metadata_impl, fetchChildren_eq_discovered]
  · intro rel n de ow lm ds ds2 cs
    exact ⟨by simp [fetchChildren], by simp [fetchChildren]⟩
  · intro rel n de ow lm ds cs
    simp [fetchChildren]

example :
    fetch_repository_metadata_impl
      [Dir.mk "a" true none none 3 [],
       Dir.mk "b" true (some "repo b") none 4 [],
       Dir.mk "group1" false none none 5 [Dir.mk "c" true none (some "me") 6 []]] =
      [(none, ⟨"a", none, none, 3⟩),
       (none, ⟨"b", some "repo b", none, 4⟩),
       (some "group1", ⟨"c", none, some "me", 6⟩)] := by
  simp [fetch_repository_metadata_impl, fetchChildren, keyOf]
  decide
